import Mathlib

/-!
Verification of the Search Filter Engine of the `jobsys/newbie-next` repository.

The development shallowly embeds the pure state-management core of the search
widget:

* the condition catalog (`src/components/search/utils/conditions.ts`),
* the per-field projection hook (`src/components/search/hooks/use-search-field.ts`,
  identical logic in both repository variants),
* the table-integrated provider (`src/components/search/context/search-provider.tsx`),
  here with the `TI` suffix,
* the standalone provider variant (the `SearchProvider` taking `queryFields` /
  `sortFields` props), here with the `SA` suffix.

JavaScript runtime values that flow through the form are modelled by the
`Value` inductive (undefined, null, strings, numbers, arrays); JS objects used
as string-keyed maps (`QueryForm`) are modelled by association lists with
distinct keys, with `{...prev, [key]: v}` modelled by `setKey` and property
deletion by `eraseKey`.
-/

set_option maxHeartbeats 1000000

namespace NewbieNext

/-- A JavaScript value as it occurs in the search form: `undefined`, `null`,
a string, a number, or an array of values. -/
inductive Value where
  | undef : Value
  | null : Value
  | str : String → Value
  | num : Int → Value
  | arr : List Value → Value
deriving Repr

/-- The JS emptiness test used throughout the source:
`v === undefined || v === null || v === ""` (strict equality, so numbers and
arrays are never "empty" in this sense). -/
def Value.isEmptyJS : Value → Bool
  | .undef => true
  | .null => true
  | .str s => s = ""
  | _ => false

/-- The JS test `v !== undefined && v !== null && v !== ""`. -/
def nonEmptyJS (v : Value) : Bool := !v.isEmptyJS

/-- The mutable per-field state `{ value, condition, type? }`.  The standalone
provider creates field values without a `type` property (modelled as `none`). -/
structure FieldValue where
  value : Value
  condition : String
  type : Option String
deriving Repr

/-- A query form: JS object keyed by field key.  Modelled as an association
list; JS objects have distinct keys, which theorems assume via `Nodup`. -/
abbrev QueryForm := List (String × FieldValue)

/-- The keys of a query form. -/
def keysOf (m : QueryForm) : List String := m.map Prod.fst

/-- JS object property read `m[k]`. -/
def lookupA (k : String) : QueryForm → Option FieldValue
  | [] => none
  | e :: rest => if e.1 = k then some e.2 else lookupA k rest

/-- JS object update `{...m, [k]: v}`: replaces the entry in place when the key
exists, otherwise appends it. -/
def setKey (m : QueryForm) (k : String) (v : FieldValue) : QueryForm :=
  if m.any (fun p => p.1 = k) then
    m.map (fun p => if p.1 = k then (k, v) else p)
  else
    m ++ [(k, v)]

/-- JS `delete m[k]`. -/
def eraseKey (m : QueryForm) (k : String) : QueryForm :=
  m.filter (fun p => p.1 ≠ k)

/-! ## Condition catalog (`utils/conditions.ts`) -/

/-- One catalog entry `{ value, label }`. -/
structure Condition where
  value : String
  label : String
deriving Repr, DecidableEq

/-- Catalog list for the `input` kind. -/
def inputConditions : List Condition :=
  [⟨"equal", "等于"⟩, ⟨"notEqual", "不等于"⟩, ⟨"include", "包含"⟩,
   ⟨"exclude", "不包含"⟩, ⟨"null", "为空"⟩, ⟨"notNull", "不为空"⟩]

/-- Catalog list for the `text` kind. -/
def textConditions : List Condition :=
  [⟨"equal", "等于"⟩, ⟨"notEqual", "不等于"⟩, ⟨"include", "包含"⟩,
   ⟨"exclude", "不包含"⟩, ⟨"null", "为空"⟩, ⟨"notNull", "不为空"⟩]

/-- Catalog list shared by the `number`, `digit`, `money`, `date` and
`dateTime` kinds. -/
def numericConditions : List Condition :=
  [⟨"equal", "等于"⟩, ⟨"notEqual", "不等于"⟩, ⟨"greaterThan", "大于"⟩,
   ⟨"lessThan", "小于"⟩, ⟨"between", "介于"⟩, ⟨"null", "为空"⟩,
   ⟨"notNull", "不为空"⟩]

/-- Catalog list for the `textarea` kind. -/
def textareaConditions : List Condition :=
  [⟨"equal", "等于"⟩, ⟨"exclude", "不包含"⟩]

/-- Catalog list for the `select` kind. -/
def selectConditions : List Condition :=
  [⟨"equal", "等于"⟩, ⟨"notEqual", "不等于"⟩, ⟨"in", "包含任一"⟩,
   ⟨"notIn", "不包含任一"⟩, ⟨"null", "为空"⟩, ⟨"notNull", "不为空"⟩]

/-- Catalog list shared by the `cascader` and `cascade` kinds. -/
def cascaderConditions : List Condition :=
  [⟨"equal", "等于"⟩, ⟨"notEqual", "不等于"⟩, ⟨"include", "包括子级"⟩]

/-- The table `DEFAULT_CONDITIONS`: the static table mapping a field's value kind to its
legal conditions and labels. -/
def DEFAULT_CONDITIONS : List (String × List Condition) :=
  [("input", inputConditions), ("text", textConditions),
   ("number", numericConditions), ("digit", numericConditions),
   ("money", numericConditions), ("date", numericConditions),
   ("dateTime", numericConditions), ("textarea", textareaConditions),
   ("select", selectConditions), ("cascader", cascaderConditions),
   ("cascade", cascaderConditions)]

/-- Lookup in the catalog table (JS `DEFAULT_CONDITIONS[fieldType]`,
`undefined` when the kind is unregistered). -/
def catalogLookup (fieldType : String) : Option (List Condition) :=
  (DEFAULT_CONDITIONS.find? (fun p => p.1 = fieldType)).map Prod.snd

/-- Function `getFieldConditions(fieldType, customConditions?)`: with
`customConditions` supplied, filters `DEFAULT_CONDITIONS[fieldType] || []` by
membership; otherwise returns `DEFAULT_CONDITIONS[fieldType] ||
DEFAULT_CONDITIONS.input`.  (All catalog lists are non-empty, so `||` on the
looked-up array only falls through when the key is absent.) -/
def getFieldConditions (fieldType : String) (customConditions : Option (List String)) :
    List Condition :=
  match customConditions with
  | some cs =>
      let allConditions := (catalogLookup fieldType).getD []
      allConditions.filter (fun c => cs.contains c.value)
  | none => (catalogLookup fieldType).getD inputConditions

/-! ## Field-state projection (`hooks/use-search-field.ts`)

The hook's `setCondition` and `isValid` are pure in the field's
`valueType`, the descriptor's `initialValue`, and the current
value/condition; the two repository variants of the hook contain the same
logic. -/

/-- JS `s.split("\n")` on the character list: splitting an empty string
yields `[""]`, a trailing newline yields a trailing empty segment. -/
def splitNlChars : List Char → List String
  | [] => [""]
  | c :: rest =>
      match splitNlChars rest with
      | [] => [""]
      | h :: t => if c = '\n' then "" :: h :: t else String.mk (c :: h.data) :: t

/-- JS `s.split("\n")`. -/
def splitNl (s : String) : List String := splitNlChars s.data

/-- JS `s.trim()`: strip whitespace from both ends. -/
def trimJS (s : String) : String :=
  String.mk (((s.data.dropWhile Char.isWhitespace).reverse.dropWhile Char.isWhitespace).reverse)

/-- Trimmed non-blank lines of a textarea string:
`s.split("\n").map(l => l.trim()).filter(l => l !== "")`. -/
def textareaLines (s : String) : List String :=
  ((splitNl s).map trimJS).filter (fun line => line ≠ "")

/-- Whether a condition is one of the multi-valued `select` conditions. -/
def isMultipleCond (c : String) : Bool := c = "in" || c = "notIn"

/-- Whether a condition is `null` or `notNull`. -/
def isNullCond (c : String) : Bool := c = "null" || c = "notNull"

/-- The value written by `setCondition(newCondition)`: the value-coercion
logic of `useSearchField`, as a pure function of the field's `valueType` and
`initialValue`, the current stored `value` and `condition`, and the new
condition.  (The hook writes this value together with `newCondition` through
`updateFieldValue`.) -/
def setConditionValue (valueType : String) (initialValue : Option Value)
    (value : Value) (condition newCondition : String) : Value :=
  -- If switching to null/notNull, clear the value
  if isNullCond newCondition then .undef
  else
    -- If switching from null/notNull to other condition, reset value
    let isOldNull := isNullCond condition
    let newValue :=
      if isOldNull then
        initialValue.getD (if valueType = "digit" then .undef else .str "")
      else value
    -- Handle value conversion
    if valueType = "select" then
      let isNewMultiple := isMultipleCond newCondition
      let isOldMultiple := isMultipleCond condition
      if isNewMultiple && !isOldMultiple then
        if nonEmptyJS value then .arr [value] else .arr []
      else if !isNewMultiple && isOldMultiple then
        match value with
        | .arr (x :: _) => x
        | .arr [] => initialValue.getD (.str "")
        | _ => initialValue.getD (.str "")
      else newValue
    else if valueType = "digit" || valueType = "date" then
      let isNewBetween : Bool := newCondition = "between"
      let isOldBetween : Bool := condition = "between"
      if isNewBetween && !isOldBetween then
        let fillValue := if nonEmptyJS value then value else .undef
        .arr [fillValue, fillValue]
      else if !isNewBetween && isOldBetween then
        match value with
        | .arr (x :: _) => x
        | .arr [] => initialValue.getD (.str "")
        | _ => initialValue.getD (.str "")
      else newValue
    else newValue

/-- The hook's field-level `isValid`:
null/notNull are always valid; a textarea string is valid iff some line is
non-blank; an array under `between` needs exactly two non-empty slots, any
other array only `length > 0`; a scalar is valid iff not
undefined/null/empty-string. -/
def fieldIsValid (valueType : String) (value : Value) (condition : String) : Bool :=
  if isNullCond condition then true
  else
    match value with
    | .str s =>
        if valueType = "textarea" then
          (splitNl s).any (fun line => (trimJS line).length > 0)
        else !(s = "")
    | .arr xs =>
        if condition = "between" then
          match xs with
          | [a, b] => nonEmptyJS a && nonEmptyJS b
          | _ => false
        else xs.length > 0
    | .undef => false
    | .null => false
    | .num _ => true

/-! ## Descriptors -/

/-- A table column as seen by the table-integrated provider, restricted to the
attributes the search engine reads.  `fieldKey` is the resolved
`dataIndex || key`. -/
structure Column where
  fieldKey : String
  valueType : Option String
  initialValue : Option Value
  defaultCondition : Option String
  defaultSortOrder : Option String
deriving Repr

/-- The lookup `queryFields.find(f => (f.dataIndex || f.key) === key)`. -/
def findColumn (fields : List Column) (key : String) : Option Column :=
  fields.find? (fun f => f.fieldKey = key)

/-- A standalone-variant field descriptor (`SearchFieldConfig`), restricted to
the attributes the engine reads. -/
structure SField where
  key : String
  type : Option String
  defaultValue : Option Value
  defaultCondition : Option String
deriving Repr

/-- The lookup `queryFields.find(f => f.key === key)` in the standalone provider. -/
def findSField (fields : List SField) (key : String) : Option SField :=
  fields.find? (fun f => f.key = key)

/-- One sort rule `{ key, order }` with `order ∈ {"asc", "desc"}`. -/
structure SortEntry where
  key : String
  order : String
deriving Repr, DecidableEq

/-- An ordered sort form. -/
abbrev SortForm := List SortEntry

/-! ## Table-integrated provider (`context/search-provider.tsx`, suffix `TI`) -/

/-- The provider's React state. -/
structure TIState where
  queryForm : QueryForm
  sortForm : SortForm
  submittedQueryForm : QueryForm
  submittedSortForm : SortForm
  hasSubmitted : Bool
deriving Repr

/-- JS `a || b` on an optional string (`undefined` and `""` are falsy). -/
def jsOrStr (a : Option String) (b : String) : String :=
  match a with
  | some s => if s = "" then b else s
  | none => b

/-- The inline validity predicate of `performSubmit`: generic non-empty check
when the key has no descriptor; otherwise null/notNull always valid, empty
scalars invalid, textarea strings need non-blank content, `between` arrays two
non-empty slots, other arrays some non-empty element. -/
def psValid (field : Option Column) (fv : FieldValue) : Bool :=
  match field with
  | none => nonEmptyJS fv.value
  | some f =>
      if isNullCond fv.condition then true
      else if fv.value.isEmptyJS then false
      else
        match fv.value with
        | .str s => if f.valueType = some "textarea" then (trimJS s).length > 0 else true
        | .arr xs =>
            if fv.condition = "between" then
              match xs with
              | [a, b] => nonEmptyJS a && nonEmptyJS b
              | _ => false
            else xs.any nonEmptyJS
        | _ => true

/-- The entry placed into the callback payload by `performSubmit`:
`{...fieldValue, type: fieldValue.type || field?.valueType || "text"}`. -/
def psNormalize (field : Option Column) (fv : FieldValue) : FieldValue :=
  { fv with type := some (jsOrStr fv.type (jsOrStr (field.bind Column.valueType) "text")) }

/-- Operation `performSubmit(qForm, sForm)`: builds the filtered payload from the valid
entries, snapshots the full live forms, sets the submitted flag, and returns
the payload handed to `onSubmit`. -/
def performSubmitTI (queryFields : List Column) (st : TIState) : TIState × QueryForm :=
  let filteredQuery : QueryForm :=
    st.queryForm.foldl
      (fun acc e =>
        if psValid (findColumn queryFields e.1) e.2 then
          setKey acc e.1 (psNormalize (findColumn queryFields e.1) e.2)
        else acc)
      []
  ({ st with
      submittedQueryForm := st.queryForm
      submittedSortForm := st.sortForm
      hasSubmitted := true },
   filteredQuery)

/-- The polymorphic second argument of the table-integrated
`updateFieldValue`: either a bare value, or a `{value, condition}`-shaped
object. -/
inductive UpdateArg where
  | plain : Value → UpdateArg
  | obj : Value → Option String → UpdateArg

/-- The merged `FieldValue` computed by the table-integrated
`updateFieldValue` before it is written under the key.  For a bare argument,
`value?.value` and `value?.condition` are `undefined`; for an object argument
they are its properties. -/
def resolveUpdate (existing : Option FieldValue) (field : Option Column)
    (arg : UpdateArg) (condition : Option String) (ty : Option String) : FieldValue :=
  let argInnerValue : Option Value :=
    match arg with
    | .plain _ => none
    | .obj v _ => some v
  let argInnerCond : Option String :=
    match arg with
    | .plain _ => none
    | .obj _ c => c
  let argRaw : Value :=
    match arg with
    | .plain v => v
    | .obj v _ => v
  { value :=
      match condition with
      | some _ => argRaw
      | none => argInnerValue.getD argRaw
    condition :=
      ((condition.or argInnerCond).or (existing.map FieldValue.condition)).getD "equal"
    type := ((ty.or (existing.bind FieldValue.type)).or (field.bind Column.valueType)).getD "text" }

/-- Operation `updateFieldValue(key, value, condition?, type?)`: replaces only the query
form entry for `key` with the merged field value. -/
def updateFieldValueTI (queryFields : List Column) (st : TIState) (key : String)
    (arg : UpdateArg) (condition : Option String) (ty : Option String) : TIState :=
  let existing := lookupA key st.queryForm
  let field := findColumn queryFields key
  { st with queryForm := setKey st.queryForm key (resolveUpdate existing field arg condition ty) }

/-! ### Sort operations (table-integrated provider) -/

/-- Helper `arrayMove` from `@dnd-kit/sortable`: remove the element at `i` and
re-insert it at position `j` (for in-range `i`; out-of-range `i` is modelled
as the identity). -/
def arrayMove (l : SortForm) (i j : Nat) : SortForm :=
  if h : i < l.length then
    (l.eraseIdx i).take j ++ l.get ⟨i, h⟩ :: (l.eraseIdx i).drop j
  else l

/-- Operation `addSort(key, order?)`: no-op when the key is present, otherwise appends
with `order || (defaultSortOrder === "descend" ? "desc" : "asc")`. -/
def addSortTI (sortFields : List Column) (key : String) (order : Option String)
    (s : SortForm) : SortForm :=
  if s.any (fun e => e.key = key) then s
  else
    let field := findColumn sortFields key
    let defaultOrder :=
      jsOrStr order (if field.bind Column.defaultSortOrder = some "descend" then "desc" else "asc")
    s ++ [⟨key, defaultOrder⟩]

/-- Operation `removeSort(key)`: filter by key. -/
def removeSortTI (key : String) (s : SortForm) : SortForm :=
  s.filter (fun e => e.key ≠ key)

/-- Operation `updateSort(key, order)`: replace the order of a present entry, no-op
otherwise. -/
def updateSortTI (key : String) (order : String) (s : SortForm) : SortForm :=
  s.map (fun e => if e.key = key then { e with order := order } else e)

/-- Operation `reorderSort(oldIndex, newIndex)`: array move. -/
def reorderSortTI (i j : Nat) (s : SortForm) : SortForm := arrayMove s i j

/-- Operation `toggleSort(key)`: flip asc/desc when present, otherwise append with the
descriptor default. -/
def toggleSortTI (sortFields : List Column) (key : String) (s : SortForm) : SortForm :=
  if s.any (fun e => e.key = key) then
    s.map (fun e =>
      if e.key = key then { e with order := if e.order = "asc" then "desc" else "asc" } else e)
  else
    let field := findColumn sortFields key
    s ++ [⟨key, if field.bind Column.defaultSortOrder = some "descend" then "desc" else "asc"⟩]

/-- One sort-list operation of the table-integrated provider. -/
inductive SortOp where
  | add : String → Option String → SortOp
  | remove : String → SortOp
  | update : String → String → SortOp
  | reorder : Nat → Nat → SortOp
  | toggle : String → SortOp

/-- Apply one sort operation to the live sort form. -/
def applySortOp (sortFields : List Column) (s : SortForm) : SortOp → SortForm
  | .add key order => addSortTI sortFields key order s
  | .remove key => removeSortTI key s
  | .update key order => updateSortTI key order s
  | .reorder i j => reorderSortTI i j s
  | .toggle key => toggleSortTI sortFields key s

/-- Apply a sequence of sort operations. -/
def applySortOps (sortFields : List Column) (s : SortForm) (ops : List SortOp) : SortForm :=
  ops.foldl (applySortOp sortFields) s

/-! ## Standalone provider (suffix `SA`) -/

/-- The standalone provider's React state. -/
structure SAState where
  queryForm : QueryForm
  sortForm : SortForm
  submittedQueryForm : QueryForm
  submittedSortForm : SortForm
  hasSubmitted : Bool
deriving Repr

/-- The default `FieldValue` for a standalone descriptor:
`value: defaultValue ?? (type === "number" ? undefined : "")`,
`condition: defaultCondition ?? "equal"` (no `type` property). -/
def defaultFieldValueSA (f : SField) : FieldValue :=
  { value := f.defaultValue.getD (if f.type = some "number" then .undef else .str "")
    condition := f.defaultCondition.getD "equal"
    type := none }

/-- Operation `resetAll()`: rebuild the query form from descriptor defaults, empty the
sort form and both snapshots, clear the submitted flag. -/
def resetAllSA (queryFields : List SField) (_st : SAState) : SAState :=
  { queryForm := queryFields.foldl (fun form f => setKey form f.key (defaultFieldValueSA f)) []
    sortForm := []
    submittedQueryForm := []
    submittedSortForm := []
    hasSubmitted := false }

/-- Operation `resetFieldValue(key)`: when a descriptor matches, restore the field to
its defaults, delete the key from the submitted snapshot, and clear the
submitted flag when the snapshot becomes empty; otherwise a no-op. -/
def resetFieldValueSA (queryFields : List SField) (st : SAState) (key : String) : SAState :=
  match findSField queryFields key with
  | none => st
  | some field =>
      let newSnapshot := eraseKey st.submittedQueryForm key
      { st with
          queryForm := setKey st.queryForm key (defaultFieldValueSA field)
          submittedQueryForm := newSnapshot
          hasSubmitted := if newSnapshot.isEmpty then false else st.hasSubmitted }

/-- The standalone `isFieldValueValid(fieldKey, fieldValue)`: unknown keys are
invalid; null/notNull always valid; empty scalars invalid; textarea strings
need a non-blank line; `between` arrays two non-empty slots, other arrays some
non-empty element. -/
def isFieldValueValidSA (queryFields : List SField) (fieldKey : String)
    (fv : FieldValue) : Bool :=
  match findSField queryFields fieldKey with
  | none => false
  | some field =>
      if isNullCond fv.condition then true
      else if fv.value.isEmptyJS then false
      else
        match fv.value with
        | .str s =>
            if field.type = some "textarea" then (textareaLines s).length > 0 else true
        | .arr xs =>
            if fv.condition = "between" then
              match xs with
              | [a, b] => nonEmptyJS a && nonEmptyJS b
              | _ => false
            else xs.any nonEmptyJS
        | _ => true

/-- The normalized entry the standalone `submit` emits for a valid field:
null/notNull entries become `{condition, value: undefined}`; a textarea
string becomes its line array; everything else passes through. -/
def normalizeSA (queryFields : List SField) (key : String) (fv : FieldValue) : FieldValue :=
  if isNullCond fv.condition then
    { condition := fv.condition, value := .undef, type := none }
  else
    match findSField queryFields key, fv.value with
    | some field, .str s =>
        if field.type = some "textarea" then
          { fv with value := .arr ((textareaLines s).map Value.str) }
        else fv
    | _, _ => fv

/-- The standalone `submit()`: collects the normalized valid entries, stores
them as the submitted-query snapshot, snapshots the sort form, sets the
submitted flag, and returns the payload handed to `onSubmit` (the query items
carry the same key/value/condition data as the filtered query object). -/
def submitSA (queryFields : List SField) (st : SAState) : SAState × QueryForm :=
  let filteredQuery : QueryForm :=
    st.queryForm.foldl
      (fun acc e =>
        if isFieldValueValidSA queryFields e.1 e.2 then
          setKey acc e.1 (normalizeSA queryFields e.1 e.2)
        else acc)
      []
  ({ st with
      submittedQueryForm := filteredQuery
      submittedSortForm := st.sortForm
      hasSubmitted := true },
   filteredQuery)

/-! ## Association-list lemmas -/

theorem lookupA_nil (k : String) : lookupA k [] = none := rfl

theorem lookupA_cons (k : String) (e : String × FieldValue) (rest : QueryForm) :
    lookupA k (e :: rest) = if e.1 = k then some e.2 else lookupA k rest := rfl

theorem keysOf_cons (e : String × FieldValue) (rest : QueryForm) :
    keysOf (e :: rest) = e.1 :: keysOf rest := rfl

theorem keysOf_append (m₁ m₂ : QueryForm) :
    keysOf (m₁ ++ m₂) = keysOf m₁ ++ keysOf m₂ := by
  simp [keysOf]

theorem any_key_iff_mem {m : QueryForm} {k : String} :
    m.any (fun p => p.1 = k) = true ↔ k ∈ keysOf m := by
  rw [List.any_eq_true]
  constructor
  · rintro ⟨p, hp, hpk⟩
    rw [decide_eq_true_eq] at hpk
    exact hpk ▸ List.mem_map_of_mem Prod.fst hp
  · intro hk
    simp only [keysOf, List.mem_map] at hk
    obtain ⟨p, hp, rfl⟩ := hk
    exact ⟨p, hp, by simp⟩

theorem lookupA_eq_none_of_not_mem {k : String} :
    ∀ (m : QueryForm), k ∉ keysOf m → lookupA k m = none
  | [], _ => rfl
  | e :: rest, h => by
      rw [keysOf_cons, List.mem_cons, not_or] at h
      rw [lookupA_cons, if_neg (fun he => h.1 he.symm)]
      exact lookupA_eq_none_of_not_mem rest h.2

theorem mem_of_lookupA {k : String} {v : FieldValue} :
    ∀ {m : QueryForm}, lookupA k m = some v → (k, v) ∈ m
  | [], h => by simp [lookupA_nil] at h
  | e :: rest, h => by
      rw [lookupA_cons] at h
      by_cases he : e.1 = k
      · rw [if_pos he] at h
        obtain ⟨k', v'⟩ := e
        obtain rfl : k' = k := he
        obtain rfl : v' = v := Option.some.inj h
        exact List.mem_cons_self _ _
      · rw [if_neg he] at h
        exact List.mem_cons_of_mem _ (mem_of_lookupA h)

theorem setKey_of_not_mem {m : QueryForm} {k : String} (v : FieldValue)
    (h : k ∉ keysOf m) : setKey m k v = m ++ [(k, v)] := by
  unfold setKey
  rw [if_neg (fun hc => h (any_key_iff_mem.mp hc))]

theorem lookupA_map_set_self {k : String} (v : FieldValue) :
    ∀ (m : QueryForm), m.any (fun p => p.1 = k) = true →
      lookupA k (m.map (fun p => if p.1 = k then (k, v) else p)) = some v
  | [], hmem => by simp at hmem
  | e :: rest, hmem => by
      rw [List.map_cons]
      by_cases he : e.1 = k
      · rw [if_pos he, lookupA_cons, if_pos rfl]
      · rw [List.any_cons, Bool.or_eq_true, decide_eq_true_eq] at hmem
        rw [if_neg he, lookupA_cons, if_neg he]
        exact lookupA_map_set_self v rest (hmem.resolve_left he)

theorem lookupA_append_self {k : String} (v : FieldValue) :
    ∀ (m : QueryForm), m.any (fun p => p.1 = k) = false →
      lookupA k (m ++ [(k, v)]) = some v
  | [], _ => by rw [List.nil_append, lookupA_cons, if_pos rfl]
  | e :: rest, hmem => by
      rw [List.any_cons, Bool.or_eq_false_iff, decide_eq_false_iff_not] at hmem
      rw [List.cons_append, lookupA_cons, if_neg hmem.1]
      exact lookupA_append_self v rest hmem.2

theorem lookupA_setKey_self (m : QueryForm) (k : String) (v : FieldValue) :
    lookupA k (setKey m k v) = some v := by
  unfold setKey
  by_cases hmem : m.any (fun p => p.1 = k) = true
  · rw [if_pos hmem]
    exact lookupA_map_set_self v m hmem
  · rw [if_neg hmem]
    exact lookupA_append_self v m (Bool.eq_false_iff.mpr hmem)

theorem lookupA_map_set_ne {k k' : String} (v : FieldValue) (h : k' ≠ k) :
    ∀ (m : QueryForm),
      lookupA k' (m.map (fun p => if p.1 = k then (k, v) else p)) = lookupA k' m
  | [] => rfl
  | e :: rest => by
      rw [List.map_cons, lookupA_cons]
      by_cases he : e.1 = k
      · rw [if_pos he]
        rw [lookupA_cons, if_neg (fun hk : e.1 = k' => h (he ▸ hk.symm ▸ rfl))]
        simp only [if_neg (fun hk : k = k' => h hk.symm)]
        exact lookupA_map_set_ne v h rest
      · rw [if_neg he, lookupA_cons]
        by_cases he' : e.1 = k'
        · rw [if_pos he', if_pos he']
        · rw [if_neg he', if_neg he']
          exact lookupA_map_set_ne v h rest

theorem lookupA_append_single_ne {k k' : String} (v : FieldValue) (h : k' ≠ k) :
    ∀ (m : QueryForm), lookupA k' (m ++ [(k, v)]) = lookupA k' m
  | [] => by
      rw [List.nil_append, lookupA_cons, if_neg (fun hk : k = k' => h hk.symm), lookupA_nil]
  | e :: rest => by
      rw [List.cons_append, lookupA_cons, lookupA_cons]
      by_cases he' : e.1 = k'
      · rw [if_pos he', if_pos he']
      · rw [if_neg he', if_neg he']
        exact lookupA_append_single_ne v h rest

theorem lookupA_setKey_ne (m : QueryForm) (k : String) (v : FieldValue)
    {k' : String} (h : k' ≠ k) : lookupA k' (setKey m k v) = lookupA k' m := by
  unfold setKey
  split
  · exact lookupA_map_set_ne v h m
  · exact lookupA_append_single_ne v h m

theorem lookupA_eraseKey_self (m : QueryForm) (k : String) :
    lookupA k (eraseKey m k) = none := by
  apply lookupA_eq_none_of_not_mem
  intro hk
  simp only [keysOf, eraseKey, List.mem_map] at hk
  obtain ⟨e, he, rfl⟩ := hk
  have := (List.mem_filter.mp he).2
  simp at this

theorem lookupA_eraseKey_ne (k : String) {k' : String} (h : k' ≠ k) :
    ∀ (m : QueryForm), lookupA k' (eraseKey m k) = lookupA k' m
  | [] => rfl
  | e :: rest => by
      rw [show eraseKey (e :: rest) k = if (e.1 ≠ k : Bool) then e :: eraseKey rest k
            else eraseKey rest k from by simp [eraseKey, List.filter_cons]]
      by_cases he : e.1 = k
      · rw [if_neg (by simp [he]), lookupA_cons,
          if_neg (fun hk : e.1 = k' => h (he ▸ hk.symm ▸ rfl))]
        exact lookupA_eraseKey_ne k h rest
      · rw [if_pos (by simp [he]), lookupA_cons, lookupA_cons]
        by_cases he' : e.1 = k'
        · rw [if_pos he', if_pos he']
        · rw [if_neg he', if_neg he']
          exact lookupA_eraseKey_ne k h rest

/-! ## Building a form by folding `setKey` over a list

`performSubmit`/`submit` build the filtered payload object by iterating over
the live form and assigning each valid entry; `resetAll` rebuilds the form
from the descriptor list.  With distinct keys, such a fold is a filtered map. -/

theorem foldl_setKey_eq {α : Type} (keyOf : α → String) (valOf : α → FieldValue)
    (p : α → Bool) :
    ∀ (l : List α) (init : QueryForm),
      (l.map keyOf).Nodup →
      (∀ x ∈ l, keyOf x ∉ keysOf init) →
      l.foldl (fun m x => if p x then setKey m (keyOf x) (valOf x) else m) init
        = init ++ (l.filter p).map (fun x => (keyOf x, valOf x))
  | [], init, _, _ => by simp
  | x :: t, init, hnd, hdisj => by
      rw [List.map_cons, List.nodup_cons] at hnd
      rw [List.foldl_cons, List.filter_cons]
      cases hp : p x with
      | true =>
          rw [if_pos rfl, setKey_of_not_mem (valOf x) (hdisj x (List.mem_cons_self x t))]
          rw [foldl_setKey_eq keyOf valOf p t (init ++ [(keyOf x, valOf x)]) hnd.2 ?_]
          · simp
          · intro y hy
            rw [keysOf_append]
            intro hmem
            rcases List.mem_append.mp hmem with hmem | hmem
            · exact hdisj y (List.mem_cons_of_mem x hy) hmem
            · have : keyOf y = keyOf x := by simpa [keysOf] using hmem
              exact hnd.1 (this ▸ List.mem_map_of_mem keyOf hy)
      | false =>
          rw [if_neg (by simp [hp])]
          rw [foldl_setKey_eq keyOf valOf p t init hnd.2
            (fun y hy => hdisj y (List.mem_cons_of_mem x hy))]
          simp

theorem lookupA_map_of_mem {α : Type} (keyOf : α → String) (valOf : α → FieldValue) :
    ∀ (l : List α), (l.map keyOf).Nodup → ∀ f ∈ l,
      lookupA (keyOf f) (l.map (fun x => (keyOf x, valOf x))) = some (valOf f)
  | [], _, f, hf => absurd hf (List.not_mem_nil f)
  | x :: t, hnd, f, hf => by
      rw [List.map_cons, List.nodup_cons] at hnd
      rw [List.map_cons, lookupA_cons]
      rcases List.mem_cons.mp hf with rfl | hf
      · rw [if_pos rfl]
      · have hne : keyOf x ≠ keyOf f :=
          fun he => hnd.1 (he ▸ List.mem_map_of_mem keyOf hf)
        rw [if_neg hne]
        exact lookupA_map_of_mem keyOf valOf t hnd.2 f hf

theorem lookupA_filter_map_of_valid {α : Type} (keyOf : α → String)
    (valOf : α → FieldValue) (p : α → Bool) (l : List α)
    (hnd : (l.map keyOf).Nodup) (f : α) (hf : f ∈ l) (hp : p f = true) :
    lookupA (keyOf f) ((l.filter p).map (fun x => (keyOf x, valOf x))) = some (valOf f) := by
  have hsub : ((l.filter p).map keyOf).Sublist (l.map keyOf) :=
    (List.filter_sublist l).map keyOf
  exact lookupA_map_of_mem keyOf valOf (l.filter p) (hnd.sublist hsub) f
    (List.mem_filter.mpr ⟨hf, hp⟩)

/-! ## Sort-form lemmas -/

/-- The keys of a sort form. -/
def sortKeys (s : SortForm) : List String := s.map SortEntry.key

theorem arrayMove_perm (l : SortForm) (i j : Nat) : List.Perm (arrayMove l i j) l := by
  unfold arrayMove
  split
  case isTrue h =>
      refine List.Perm.trans List.perm_middle ?_
      rw [List.take_append_drop]
      rw [List.eraseIdx_eq_take_drop_succ]
      refine List.Perm.trans List.perm_middle.symm ?_
      rw [List.get_eq_getElem, List.getElem_cons_drop l i h, List.take_append_drop]
  case isFalse => exact List.Perm.refl l

theorem sortKeys_updateSort (key order : String) (s : SortForm) :
    sortKeys (updateSortTI key order s) = sortKeys s := by
  unfold updateSortTI sortKeys
  rw [List.map_map]
  refine List.map_congr_left ?_
  intro e _
  by_cases he : e.key = key <;> simp [he]

theorem any_sortKey_iff_mem {s : SortForm} {k : String} :
    s.any (fun e => e.key = k) = true ↔ k ∈ sortKeys s := by
  rw [List.any_eq_true]
  constructor
  · rintro ⟨e, he, hek⟩
    rw [decide_eq_true_eq] at hek
    exact hek ▸ List.mem_map_of_mem SortEntry.key he
  · intro hk
    simp only [sortKeys, List.mem_map] at hk
    obtain ⟨e, he, rfl⟩ := hk
    exact ⟨e, he, by simp⟩

theorem nodup_addSort (sortFields : List Column) (key : String) (order : Option String)
    {s : SortForm} (hnd : (sortKeys s).Nodup) :
    (sortKeys (addSortTI sortFields key order s)).Nodup := by
  unfold addSortTI
  split
  · exact hnd
  case isFalse hmem =>
      rw [show sortKeys (s ++ [⟨key, _⟩]) = sortKeys s ++ [key] by simp [sortKeys]]
      rw [List.nodup_append]
      refine ⟨hnd, List.nodup_singleton key, ?_⟩
      intro a ha hb
      rw [List.mem_singleton] at hb
      exact hmem (any_sortKey_iff_mem.mpr (hb ▸ ha))

theorem nodup_removeSort (key : String) {s : SortForm} (hnd : (sortKeys s).Nodup) :
    (sortKeys (removeSortTI key s)).Nodup := by
  unfold removeSortTI
  exact hnd.sublist ((List.filter_sublist s).map SortEntry.key)

theorem nodup_updateSort (key order : String) {s : SortForm} (hnd : (sortKeys s).Nodup) :
    (sortKeys (updateSortTI key order s)).Nodup := by
  rw [sortKeys_updateSort]
  exact hnd

theorem nodup_reorderSort (i j : Nat) {s : SortForm} (hnd : (sortKeys s).Nodup) :
    (sortKeys (reorderSortTI i j s)).Nodup := by
  unfold reorderSortTI sortKeys
  exact (((arrayMove_perm s i j).map SortEntry.key).nodup_iff).mpr hnd

theorem nodup_toggleSort (sortFields : List Column) (key : String)
    {s : SortForm} (hnd : (sortKeys s).Nodup) :
    (sortKeys (toggleSortTI sortFields key s)).Nodup := by
  unfold toggleSortTI
  split
  · unfold sortKeys
    rw [List.map_map]
    have : (s.map (SortEntry.key ∘ fun e =>
        if e.key = key
          then { e with order := if e.order = "asc" then "desc" else "asc" } else e))
        = s.map SortEntry.key := by
      refine List.map_congr_left ?_
      intro e _
      by_cases he : e.key = key <;> simp [he, Function.comp]
    rw [this]
    exact hnd
  case isFalse hmem =>
      rw [show sortKeys (s ++ [⟨key, _⟩]) = sortKeys s ++ [key] by simp [sortKeys]]
      rw [List.nodup_append]
      refine ⟨hnd, List.nodup_singleton key, ?_⟩
      intro a ha hb
      rw [List.mem_singleton] at hb
      exact hmem (any_sortKey_iff_mem.mpr (hb ▸ ha))

theorem nodup_applySortOp (sortFields : List Column) (s : SortForm) (op : SortOp)
    (hnd : (sortKeys s).Nodup) : (sortKeys (applySortOp sortFields s op)).Nodup := by
  cases op with
  | add key order => exact nodup_addSort sortFields key order hnd
  | remove key => exact nodup_removeSort key hnd
  | update key order => exact nodup_updateSort key order hnd
  | reorder i j => exact nodup_reorderSort i j hnd
  | toggle key => exact nodup_toggleSort sortFields key hnd

theorem nodup_applySortOps (sortFields : List Column) :
    ∀ (ops : List SortOp) (s : SortForm), (sortKeys s).Nodup →
      (sortKeys (applySortOps sortFields s ops)).Nodup
  | [], _, hnd => hnd
  | op :: ops, s, hnd =>
      nodup_applySortOps sortFields ops (applySortOp sortFields s op)
        (nodup_applySortOp sortFields s op hnd)

/-! ## String helper lemmas -/

theorem string_length_pos_iff (s : String) : 0 < s.length ↔ s ≠ "" := by
  constructor
  · intro h he
    subst he
    simp at h
  · intro h
    cases s with
    | mk data =>
        cases data with
        | nil => exact absurd rfl h
        | cons c cs => simp [String.length]

theorem any_trim_pos_eq_not_isEmpty (s : String) :
    ((splitNl s).any fun line => (trimJS line).length > 0) = !(textareaLines s).isEmpty := by
  unfold textareaLines
  induction splitNl s with
  | nil => rfl
  | cons a t ih =>
      rw [List.map_cons, List.filter_cons, List.any_cons]
      by_cases h : trimJS a = ""
      · rw [if_neg (by simp [h])]
        have hz : (decide ((trimJS a).length > 0)) = false := by
          rw [h]
          rfl
        rw [hz, Bool.false_or]
        exact ih
      · have hl : 0 < (trimJS a).length := (string_length_pos_iff (trimJS a)).mpr h
        simp [h, hl]

/-! ## Claim C8: getFieldConditions -/

/-- The behavior C8 asserts for `getFieldConditions`: the catalog's ordered
list for the value kind, falling back to the text kind's list when the kind is
unregistered, and, when an allowed-conditions list is supplied, the
intersection of that full (fallback-included) list with it in catalog order.
Written from the claim's words, for comparison with the source function. -/
def getFieldConditionsClaim (fieldType : String)
    (customConditions : Option (List String)) : List Condition :=
  let full := (catalogLookup fieldType).getD textConditions
  match customConditions with
  | some cs => full.filter (fun c => cs.contains c.value)
  | none => full

/-- C8 counterexample: for the unregistered kind "foo" with allowed
conditions `["equal"]`, the source returns the empty list (the text fallback
is not applied in the filtered branch), while the claim predicts the
intersection of the text list with `["equal"]`. -/
theorem getFieldConditions_claim_counterexample :
    getFieldConditions "foo" (some ["equal"]) = [] ∧
    getFieldConditionsClaim "foo" (some ["equal"]) = [⟨"equal", "等于"⟩] ∧
    getFieldConditions "foo" (some ["equal"]) ≠
      getFieldConditionsClaim "foo" (some ["equal"]) := by
  refine ⟨rfl, rfl, ?_⟩
  intro h
  rw [show getFieldConditions "foo" (some ["equal"]) = [] from rfl,
    show getFieldConditionsClaim "foo" (some ["equal"]) = [⟨"equal", "等于"⟩] from rfl] at h
  exact absurd h (by simp)

/-- C8 (amended): `getFieldConditions(valueKind, allowedConditions?)` returns
the catalog's ordered condition list for `valueKind`; when `valueKind` is
unregistered it falls back to the text kind's list only when
`allowedConditions` is absent; when `allowedConditions` is supplied it returns
the intersection of the catalog's list for `valueKind` (empty when
unregistered, without text fallback) with `allowedConditions`, preserving
catalog order. -/
theorem getFieldConditions_amended_spec (fieldType : String) (cs : List String) :
    (catalogLookup fieldType = none →
        getFieldConditions fieldType none = textConditions ∧
        getFieldConditions fieldType (some cs) = []) ∧
    (∀ l, catalogLookup fieldType = some l →
        getFieldConditions fieldType none = l ∧
        getFieldConditions fieldType (some cs) =
          l.filter (fun c => cs.contains c.value)) := by
  constructor
  · intro h
    constructor
    · show (catalogLookup fieldType).getD inputConditions = textConditions
      rw [h]
      rfl
    · show ((catalogLookup fieldType).getD []).filter (fun c => cs.contains c.value) = []
      rw [h]
      rfl
  · intro l h
    constructor
    · show (catalogLookup fieldType).getD inputConditions = l
      rw [h]
      rfl
    · show ((catalogLookup fieldType).getD []).filter (fun c => cs.contains c.value) = _
      rw [h]
      rfl

/-- Witness for C8's amended theorem at the unregistered kind "foo". -/
theorem getFieldConditions_amended_spec_witness :
    catalogLookup "foo" = none ∧
    (getFieldConditions "foo" none = textConditions ∧
      getFieldConditions "foo" (some ["equal"]) = []) :=
  ⟨rfl, (getFieldConditions_amended_spec "foo" ["equal"]).1 rfl⟩

/-! ## Claim C3: the field-level validity predicate -/

/-- The field-level validity predicate exactly as C3 states it (in
particular: an array value under a condition other than `between` is valid
iff at least one element is non-empty).  Written from the claim's words, for
comparison with the hook's `isValid`. -/
def fieldIsValidClaim (valueType : String) (v : Value) (condition : String) : Bool :=
  if condition = "null" || condition = "notNull" then true
  else
    match v with
    | .str s =>
        if valueType = "textarea" then !(textareaLines s).isEmpty
        else nonEmptyJS (.str s)
    | .arr xs =>
        if condition = "between" then
          decide (xs.length = 2) && nonEmptyJS (xs.getD 0 .undef) && nonEmptyJS (xs.getD 1 .undef)
        else xs.any nonEmptyJS
    | other => nonEmptyJS other

/-- C3 counterexample: a select field with value `[""]` under condition `in`:
the hook's `isValid` only checks `value.length > 0` and returns true, while
the claim's "at least one element is non-empty" predicts false. -/
theorem fieldIsValid_claim_counterexample :
    fieldIsValid "select" (.arr [.str ""]) "in" = true ∧
    fieldIsValidClaim "select" (.arr [.str ""]) "in" = false :=
  ⟨rfl, rfl⟩

/-- The amended validity predicate: as C3, except that an array value under a
condition other than `between` is valid iff the array is non-empty. -/
def fieldIsValidAmended (valueType : String) (v : Value) (condition : String) : Bool :=
  if condition = "null" || condition = "notNull" then true
  else
    match v with
    | .str s =>
        if valueType = "textarea" then !(textareaLines s).isEmpty
        else nonEmptyJS (.str s)
    | .arr xs =>
        if condition = "between" then
          decide (xs.length = 2) && nonEmptyJS (xs.getD 0 .undef) && nonEmptyJS (xs.getD 1 .undef)
        else !xs.isEmpty
    | other => nonEmptyJS other

/-- C3 (amended): the hook's field-level `isValid` returns, for every
value/condition/valueKind combination: true when the condition is null or
notNull; for a textarea string, true iff at least one line is non-blank after
trimming; for an array under `between`, true iff it has exactly two slots and
both are neither undefined, null, nor empty; for any other array, true iff
the array is non-empty; for a scalar, true iff it is not undefined, null, or
the empty string. -/
theorem fieldIsValid_matches_amended_spec (valueType : String) (v : Value)
    (condition : String) :
    fieldIsValid valueType v condition = fieldIsValidAmended valueType v condition := by
  unfold fieldIsValid fieldIsValidAmended isNullCond
  cases v with
  | str s =>
      by_cases hta : valueType = "textarea"
      · simp only [hta, if_true, any_trim_pos_eq_not_isEmpty]
      · simp only [if_neg hta]
        rfl
  | arr xs =>
      by_cases hb : condition = "between"
      · simp only [hb, if_true]
        match xs with
        | [] => rfl
        | [a] => rfl
        | [a, b] => simp [List.getD]
        | a :: b :: c :: t => simp [List.length]

      · simp only [if_neg hb]
        cases xs with
        | nil => rfl
        | cons a t => simp [List.isEmpty]
  | undef => rfl
  | null => rfl
  | num n => rfl

/-! ## Claim C2: value coercion on condition change -/

/-- C2: for every field and condition transition, `setCondition` coerces the
stored value as documented: switching into null/notNull forces the value to
undefined; on a select field, switching from a single-valued condition into
in/notIn wraps a non-empty scalar `v` into `[v]` (an empty scalar gives `[]`)
and switching back takes the first array element (or the default when the
array is empty); on digit/date fields, switching into `between` turns a
non-empty value `v` into the tuple `[v, v]` and switching back takes the
first tuple element; in particular the round trip equal → in → equal on a
select field with scalar value "a" first yields `["a"]` and then restores
"a". -/
theorem setCondition_coercion (valueType : String) (initialValue : Option Value)
    (v : Value) (c nc : String) :
    (isNullCond nc = true → setConditionValue valueType initialValue v c nc = .undef) ∧
    (isMultipleCond nc = true → isMultipleCond c = false →
        setConditionValue "select" initialValue v c nc =
          (if nonEmptyJS v then .arr [v] else .arr [])) ∧
    (isMultipleCond c = true → isMultipleCond nc = false → isNullCond nc = false →
        ∀ x xs, setConditionValue "select" initialValue (.arr (x :: xs)) c nc = x) ∧
    (isMultipleCond c = true → isMultipleCond nc = false → isNullCond nc = false →
        setConditionValue "select" initialValue (.arr []) c nc =
          initialValue.getD (.str "")) ∧
    ((valueType = "digit" ∨ valueType = "date") → c ≠ "between" → nonEmptyJS v = true →
        setConditionValue valueType initialValue v c "between" = .arr [v, v]) ∧
    ((valueType = "digit" ∨ valueType = "date") → c = "between" → nc ≠ "between" →
        isNullCond nc = false →
        ∀ x xs, setConditionValue valueType initialValue (.arr (x :: xs)) c nc = x) ∧
    (setConditionValue "select" initialValue (.str "a") "equal" "in" = .arr [.str "a"] ∧
      setConditionValue "select" initialValue (.arr [.str "a"]) "in" "equal" = .str "a") := by
  refine ⟨?_, ?_, ?_, ?_, ?_, ?_, rfl, rfl⟩
  · intro h
    unfold setConditionValue
    rw [if_pos h]
  · intro hnm hoc
    rcases (by simpa [isMultipleCond] using hnm : nc = "in" ∨ nc = "notIn") with rfl | rfl
    · have h1 : isNullCond "in" = false := rfl
      have h2 : isMultipleCond "in" = true := rfl
      unfold setConditionValue
      rw [h1, h2, hoc]
      simp
    · have h1 : isNullCond "notIn" = false := rfl
      have h2 : isMultipleCond "notIn" = true := rfl
      unfold setConditionValue
      rw [h1, h2, hoc]
      simp
  · intro hoc hnm hnn x xs
    unfold setConditionValue
    rw [hnn, hoc, hnm]
    simp
  · intro hoc hnm hnn
    unfold setConditionValue
    rw [hnn, hoc, hnm]
    simp
  · intro hvt hcb hne
    have h1 : isNullCond "between" = false := rfl
    have hdb : decide (c = "between") = false := decide_eq_false hcb
    rcases hvt with rfl | rfl
    · unfold setConditionValue
      rw [h1, hdb, hne]
      simp
    · unfold setConditionValue
      rw [h1, hdb, hne]
      simp
  · intro hvt hcb hnb hnn x xs
    subst hcb
    have hdb : decide (nc = "between") = false := decide_eq_false hnb
    rcases hvt with rfl | rfl
    · unfold setConditionValue
      rw [hnn, hdb]
      simp
    · unfold setConditionValue
      rw [hnn, hdb]
      simp

/-- Witness for C2 at a concrete transition: switching a text field into the
null condition clears its value. -/
theorem setCondition_coercion_witness :
    isNullCond "null" = true ∧
    setConditionValue "text" none (.str "x") "equal" "null" = .undef :=
  ⟨rfl, (setCondition_coercion "text" none (.str "x") "equal" "null").1 rfl⟩

/-! ## Payload characterizations of the submit operations -/

theorem foldl_setKey_eq_all {α : Type} (keyOf : α → String) (valOf : α → FieldValue)
    (l : List α) (hnd : (l.map keyOf).Nodup) :
    l.foldl (fun m x => setKey m (keyOf x) (valOf x)) []
      = l.map (fun x => (keyOf x, valOf x)) := by
  have hfun : (fun (m : QueryForm) (x : α) => setKey m (keyOf x) (valOf x))
      = (fun m x => if (fun _ : α => true) x then setKey m (keyOf x) (valOf x) else m) := rfl
  rw [hfun, foldl_setKey_eq keyOf valOf (fun _ => true) l [] hnd
    (fun x _ hmem => by simp [keysOf] at hmem)]
  rw [List.filter_true, List.nil_append]

theorem performSubmitTI_payload (queryFields : List Column) (st : TIState)
    (hnd : (keysOf st.queryForm).Nodup) :
    (performSubmitTI queryFields st).2 =
      (st.queryForm.filter (fun e => psValid (findColumn queryFields e.1) e.2)).map
        (fun e => (e.1, psNormalize (findColumn queryFields e.1) e.2)) := by
  show st.queryForm.foldl _ [] = _
  rw [foldl_setKey_eq (fun e : String × FieldValue => e.1)
    (fun e => psNormalize (findColumn queryFields e.1) e.2)
    (fun e => psValid (findColumn queryFields e.1) e.2) st.queryForm [] hnd
    (fun x _ hmem => by simp [keysOf] at hmem)]
  rw [List.nil_append]

theorem submitSA_payload (queryFields : List SField) (st : SAState)
    (hnd : (keysOf st.queryForm).Nodup) :
    (submitSA queryFields st).2 =
      (st.queryForm.filter (fun e => isFieldValueValidSA queryFields e.1 e.2)).map
        (fun e => (e.1, normalizeSA queryFields e.1 e.2)) := by
  show st.queryForm.foldl _ [] = _
  rw [foldl_setKey_eq (fun e : String × FieldValue => e.1)
    (fun e => normalizeSA queryFields e.1 e.2)
    (fun e => isFieldValueValidSA queryFields e.1 e.2) st.queryForm [] hnd
    (fun x _ hmem => by simp [keysOf] at hmem)]
  rw [List.nil_append]

/-! ## Claim C1: snapshot vs callback payload of performSubmit -/

/-- C1: after `submit()` in the table-integrated provider, the
submitted-query snapshot equals the full live query form (every key, valid or
not, with its raw FieldValue), the submitted-sort snapshot equals the live
sort form, the submitted flag is set, and the payload handed to the external
`onSubmit` callback consists of exactly the live entries that pass the
validity predicate, each normalized by backfilling its `type`. -/
theorem performSubmit_snapshot_and_payload (queryFields : List Column) (st : TIState)
    (hnd : (keysOf st.queryForm).Nodup) :
    (performSubmitTI queryFields st).1.submittedQueryForm = st.queryForm ∧
    (performSubmitTI queryFields st).1.submittedSortForm = st.sortForm ∧
    (performSubmitTI queryFields st).1.hasSubmitted = true ∧
    (performSubmitTI queryFields st).2 =
      (st.queryForm.filter (fun e => psValid (findColumn queryFields e.1) e.2)).map
        (fun e => (e.1, psNormalize (findColumn queryFields e.1) e.2)) :=
  ⟨rfl, rfl, rfl, performSubmitTI_payload queryFields st hnd⟩

/-- Columns for the C1 witness: a text field and a digit field. -/
def fieldsC1 : List Column :=
  [{ fieldKey := "name", valueType := some "text", initialValue := none,
     defaultCondition := none, defaultSortOrder := none },
   { fieldKey := "age", valueType := some "digit", initialValue := none,
     defaultCondition := none, defaultSortOrder := none }]

/-- State for the C1 witness: "name" holds a valid value, "age" an invalid
(empty) one. -/
def stateC1 : TIState :=
  { queryForm :=
      [("name", { value := .str "alice", condition := "equal", type := some "text" }),
       ("age", { value := .str "", condition := "equal", type := some "digit" })],
    sortForm := [], submittedQueryForm := [], submittedSortForm := [],
    hasSubmitted := false }

/-- Witness for C1: submitting with one valid and one invalid field leaves
both keys in the snapshot (it equals the full live form) while the callback
payload keeps only the valid entry. -/
theorem performSubmit_snapshot_and_payload_witness :
    (keysOf stateC1.queryForm).Nodup ∧
    ((performSubmitTI fieldsC1 stateC1).1.submittedQueryForm = stateC1.queryForm ∧
      (performSubmitTI fieldsC1 stateC1).1.submittedSortForm = stateC1.sortForm ∧
      (performSubmitTI fieldsC1 stateC1).1.hasSubmitted = true ∧
      (performSubmitTI fieldsC1 stateC1).2 =
        (stateC1.queryForm.filter (fun e => psValid (findColumn fieldsC1 e.1) e.2)).map
          (fun e => (e.1, psNormalize (findColumn fieldsC1 e.1) e.2))) :=
  ⟨by decide, performSubmit_snapshot_and_payload fieldsC1 stateC1 (by decide)⟩

/-! ## Claim C7: validity fallback for keys without a descriptor -/

/-- C7: during submit validation in the table-integrated provider, an entry
whose key has no matching descriptor is judged valid iff its value is not
undefined, null, or the empty string (arrays, including non-empty ones, pass
this check), and such a valid entry is included in the submission payload
with its `type` backfilled; no error is raised. -/
theorem performSubmit_unknown_key_fallback (queryFields : List Column) (st : TIState)
    (key : String) (fv : FieldValue)
    (hnone : findColumn queryFields key = none)
    (hnd : (keysOf st.queryForm).Nodup)
    (hlk : lookupA key st.queryForm = some fv) :
    (psValid (findColumn queryFields key) fv = true ↔
      ¬ (fv.value = .undef ∨ fv.value = .null ∨ fv.value = .str "")) ∧
    (psValid (findColumn queryFields key) fv = true →
      lookupA key (performSubmitTI queryFields st).2 =
        some { fv with type := some (jsOrStr fv.type "text") }) := by
  constructor
  · rw [hnone]
    show nonEmptyJS fv.value = true ↔ _
    cases hv : fv.value <;> simp [nonEmptyJS, Value.isEmptyJS]
  · intro hv
    rw [performSubmitTI_payload queryFields st hnd]
    have happ := lookupA_filter_map_of_valid (fun e : String × FieldValue => e.1)
      (fun e => psNormalize (findColumn queryFields e.1) e.2)
      (fun e => psValid (findColumn queryFields e.1) e.2) st.queryForm hnd (key, fv)
      (mem_of_lookupA hlk) hv
    rw [happ]
    show some (psNormalize (findColumn queryFields key) fv) = _
    rw [hnone]
    rfl

/-- State for the C7 witness: a single entry under the key "custom", which
has no descriptor, holding a non-empty array. -/
def stateC7 : TIState :=
  { queryForm := [("custom", { value := .arr [.str "x"], condition := "equal", type := none })],
    sortForm := [], submittedQueryForm := [], submittedSortForm := [],
    hasSubmitted := false }

/-- Witness for C7 with an empty descriptor list and an injected custom
field holding a non-empty array. -/
theorem performSubmit_unknown_key_fallback_witness :
    findColumn [] "custom" = none ∧
    (keysOf stateC7.queryForm).Nodup ∧
    lookupA "custom" stateC7.queryForm =
      some { value := .arr [.str "x"], condition := "equal", type := none } ∧
    ((psValid (findColumn [] "custom")
          { value := .arr [.str "x"], condition := "equal", type := none } = true ↔
        ¬ (Value.arr [.str "x"] = .undef ∨ Value.arr [.str "x"] = .null ∨
            Value.arr [.str "x"] = .str "")) ∧
      (psValid (findColumn [] "custom")
          { value := .arr [.str "x"], condition := "equal", type := none } = true →
        lookupA "custom" (performSubmitTI [] stateC7).2 =
          some { value := .arr [.str "x"], condition := "equal",
                 type := some (jsOrStr none "text") })) :=
  ⟨rfl, by decide, rfl,
    performSubmit_unknown_key_fallback [] stateC7 "custom"
      { value := .arr [.str "x"], condition := "equal", type := none } rfl (by decide) rfl⟩

/-! ## Claim C5: textarea line-splitting at submit time -/

theorem normalizeSA_textarea (queryFields : List SField) (key : String)
    (fv : FieldValue) (f : SField) (s : String)
    (hnn : isNullCond fv.condition = false)
    (hf : findSField queryFields key = some f)
    (hta : f.type = some "textarea")
    (hs : fv.value = .str s) :
    normalizeSA queryFields key fv
      = { fv with value := .arr ((textareaLines s).map Value.str) } := by
  unfold normalizeSA
  rw [hnn]
  simp only [Bool.false_eq_true, if_false, hf, hs, hta, if_pos rfl]
  simp

/-- C5: in the standalone provider, every valid textarea field whose value is
a string (under an ordinary condition) has that value replaced in the
normalized callback payload by the array of its newline-split, trimmed,
non-blank lines. -/
theorem submit_textarea_lines (queryFields : List SField) (st : SAState)
    (key : String) (fv : FieldValue) (f : SField) (s : String)
    (hnd : (keysOf st.queryForm).Nodup)
    (hlk : lookupA key st.queryForm = some fv)
    (hf : findSField queryFields key = some f)
    (hta : f.type = some "textarea")
    (hs : fv.value = .str s)
    (hnn : isNullCond fv.condition = false)
    (hvalid : isFieldValueValidSA queryFields key fv = true) :
    lookupA key (submitSA queryFields st).2 =
      some { fv with value := .arr ((textareaLines s).map Value.str) } := by
  rw [submitSA_payload queryFields st hnd]
  have happ := lookupA_filter_map_of_valid (fun e : String × FieldValue => e.1)
    (fun e => normalizeSA queryFields e.1 e.2)
    (fun e => isFieldValueValidSA queryFields e.1 e.2) st.queryForm hnd (key, fv)
    (mem_of_lookupA hlk) hvalid
  rw [happ]
  show some (normalizeSA queryFields key fv) = _
  rw [normalizeSA_textarea queryFields key fv f s hnn hf hta hs]

/-- Descriptors for the C5 witness: one textarea field "tags". -/
def fieldsC5 : List SField :=
  [{ key := "tags", type := some "textarea", defaultValue := none, defaultCondition := none }]

/-- State for the C5 witness: "tags" holds the multi-line string
"a\n\nb \n". -/
def stateC5 : SAState :=
  { queryForm := [("tags", { value := .str "a\n\nb \n", condition := "equal", type := none })],
    sortForm := [], submittedQueryForm := [], submittedSortForm := [],
    hasSubmitted := false }

/-- Witness for C5: submitting the textarea value "a\n\nb \n" puts the line
array ["a", "b"] into the callback payload. -/
theorem submit_textarea_lines_witness :
    lookupA "tags" (submitSA fieldsC5 stateC5).2 =
      some { value := .arr [.str "a", .str "b"], condition := "equal", type := none } :=
  submit_textarea_lines fieldsC5 stateC5 "tags"
    { value := .str "a\n\nb \n", condition := "equal", type := none }
    { key := "tags", type := some "textarea", defaultValue := none, defaultCondition := none }
    "a\n\nb \n" (by decide) rfl rfl rfl rfl rfl (by decide)

/-! ## Claim C4: resetAll -/

/-- C4: after `resetAll()` in the standalone provider, every descriptor's
entry in the live query form equals its defaults (defaultValue or
kind-appropriate empty, defaultCondition or "equal"), the live sort form is
empty, both submitted snapshots are empty, and the submitted flag is
cleared. -/
theorem resetAll_restores_defaults (queryFields : List SField) (st : SAState)
    (f : SField) (hnd : (queryFields.map SField.key).Nodup) (hf : f ∈ queryFields) :
    lookupA f.key (resetAllSA queryFields st).queryForm = some (defaultFieldValueSA f) ∧
    (resetAllSA queryFields st).sortForm = [] ∧
    (resetAllSA queryFields st).submittedQueryForm = [] ∧
    (resetAllSA queryFields st).submittedSortForm = [] ∧
    (resetAllSA queryFields st).hasSubmitted = false := by
  refine ⟨?_, rfl, rfl, rfl, rfl⟩
  show lookupA f.key
    (queryFields.foldl (fun form x => setKey form x.key (defaultFieldValueSA x)) []) = _
  rw [foldl_setKey_eq_all SField.key defaultFieldValueSA queryFields hnd]
  exact lookupA_map_of_mem SField.key defaultFieldValueSA queryFields hnd f hf

/-- Descriptor for the C4 witness: a number field with no explicit
defaults. -/
def fieldC4 : SField :=
  { key := "amount", type := some "number", defaultValue := none, defaultCondition := none }

/-- State for the C4 witness: an edited form with a live sort rule, a
non-empty snapshot and the submitted flag set. -/
def stateC4 : SAState :=
  { queryForm := [("amount", { value := .num 5, condition := "greaterThan", type := none })],
    sortForm := [⟨"amount", "desc"⟩],
    submittedQueryForm := [("amount", { value := .num 5, condition := "greaterThan", type := none })],
    submittedSortForm := [⟨"amount", "desc"⟩],
    hasSubmitted := true }

/-- Witness for C4 on a concrete edited state. -/
theorem resetAll_restores_defaults_witness :
    lookupA "amount" (resetAllSA [fieldC4] stateC4).queryForm =
      some (defaultFieldValueSA fieldC4) ∧
    (resetAllSA [fieldC4] stateC4).sortForm = [] ∧
    (resetAllSA [fieldC4] stateC4).submittedQueryForm = [] ∧
    (resetAllSA [fieldC4] stateC4).submittedSortForm = [] ∧
    (resetAllSA [fieldC4] stateC4).hasSubmitted = false :=
  resetAll_restores_defaults [fieldC4] stateC4 fieldC4 (by decide)
    (List.mem_singleton.mpr rfl)

/-! ## Claim C6: resetFieldValue -/

/-- C6: `resetFieldValue(key)` in the standalone provider restores the
field's value to its descriptor defaults, deletes the key from the
submitted-query snapshot, and clears the submitted flag when the snapshot
thereby becomes empty; for a key with no matching descriptor it is a
no-op. -/
theorem resetFieldValue_spec (queryFields : List SField) (st : SAState) (key : String) :
    (∀ f, findSField queryFields key = some f →
        lookupA key (resetFieldValueSA queryFields st key).queryForm
            = some (defaultFieldValueSA f) ∧
        (resetFieldValueSA queryFields st key).submittedQueryForm
            = eraseKey st.submittedQueryForm key ∧
        lookupA key (resetFieldValueSA queryFields st key).submittedQueryForm = none ∧
        ((eraseKey st.submittedQueryForm key).isEmpty = true →
            (resetFieldValueSA queryFields st key).hasSubmitted = false)) ∧
    (findSField queryFields key = none → resetFieldValueSA queryFields st key = st) := by
  constructor
  · intro f hf
    unfold resetFieldValueSA
    rw [hf]
    refine ⟨lookupA_setKey_self st.queryForm key (defaultFieldValueSA f), rfl,
      lookupA_eraseKey_self st.submittedQueryForm key, ?_⟩
    intro hempty
    show (if (eraseKey st.submittedQueryForm key).isEmpty then false else st.hasSubmitted)
      = false
    rw [if_pos hempty]
  · intro hf
    unfold resetFieldValueSA
    rw [hf]

/-- Descriptor for the C6 witness. -/
def fieldC6 : SField :=
  { key := "city", type := none, defaultValue := none, defaultCondition := none }

/-- State for the C6 witness: "city" is the only key in the submitted
snapshot, so resetting it empties the snapshot. -/
def stateC6 : SAState :=
  { queryForm := [("city", { value := .str "Paris", condition := "equal", type := none })],
    sortForm := [],
    submittedQueryForm := [("city", { value := .str "Paris", condition := "equal", type := none })],
    submittedSortForm := [],
    hasSubmitted := true }

/-- Witness for C6 on a concrete state whose snapshot becomes empty. -/
theorem resetFieldValue_spec_witness :
    lookupA "city" (resetFieldValueSA [fieldC6] stateC6 "city").queryForm
        = some (defaultFieldValueSA fieldC6) ∧
    (resetFieldValueSA [fieldC6] stateC6 "city").submittedQueryForm
        = eraseKey stateC6.submittedQueryForm "city" ∧
    lookupA "city" (resetFieldValueSA [fieldC6] stateC6 "city").submittedQueryForm = none ∧
    ((eraseKey stateC6.submittedQueryForm "city").isEmpty = true →
        (resetFieldValueSA [fieldC6] stateC6 "city").hasSubmitted = false) :=
  (resetFieldValue_spec [fieldC6] stateC6 "city").1 fieldC6 rfl

/-! ## Claim C9: sort-form key uniqueness -/

/-- C9: starting from a live sort form with distinct keys, any sequence of
the sort operations addSort, removeSort, updateSort, reorderSort and
toggleSort preserves the invariant that the sort form has at most one entry
per key; in particular, addSort on an already-present key leaves the sort
form completely unchanged. -/
theorem sort_ops_key_invariant (sortFields : List Column) (s : SortForm)
    (ops : List SortOp) (key : String) (order : Option String)
    (hnd : (sortKeys s).Nodup) :
    (sortKeys (applySortOps sortFields s ops)).Nodup ∧
    (s.any (fun e => e.key = key) = true → addSortTI sortFields key order s = s) := by
  refine ⟨nodup_applySortOps sortFields ops s hnd, ?_⟩
  intro hmem
  unfold addSortTI
  rw [if_pos hmem]

/-- Witness for C9: a concrete operation sequence (add, toggle, reorder,
update, remove) on a two-entry sort form, plus an addSort of the
already-present key "b". -/
theorem sort_ops_key_invariant_witness :
    (sortKeys [⟨"a", "asc"⟩, ⟨"b", "desc"⟩]).Nodup ∧
    ((sortKeys (applySortOps [] [⟨"a", "asc"⟩, ⟨"b", "desc"⟩]
        [.add "c" none, .toggle "a", .reorder 0 2, .update "b" "asc", .remove "a"])).Nodup ∧
      (([⟨"a", "asc"⟩, ⟨"b", "desc"⟩] : SortForm).any (fun e => e.key = "b") = true →
        addSortTI [] "b" none [⟨"a", "asc"⟩, ⟨"b", "desc"⟩] = [⟨"a", "asc"⟩, ⟨"b", "desc"⟩])) :=
  ⟨by decide,
    sort_ops_key_invariant [] [⟨"a", "asc"⟩, ⟨"b", "desc"⟩]
      [.add "c" none, .toggle "a", .reorder 0 2, .update "b" "asc", .remove "a"]
      "b" none (by decide)⟩

/-! ## Claim C10: frame effect of updateFieldValue -/

/-- C10: `updateFieldValue(key, ...)` in the table-integrated provider
changes only the query-form entry for `key`: every other key's entry is
unchanged, and the sort form, both submitted snapshots and the submitted
flag are unchanged. -/
theorem updateFieldValue_frame (queryFields : List Column) (st : TIState) (key : String)
    (arg : UpdateArg) (condition ty : Option String) (k' : String) (hk : k' ≠ key) :
    lookupA k' (updateFieldValueTI queryFields st key arg condition ty).queryForm
        = lookupA k' st.queryForm ∧
    (updateFieldValueTI queryFields st key arg condition ty).sortForm = st.sortForm ∧
    (updateFieldValueTI queryFields st key arg condition ty).submittedQueryForm
        = st.submittedQueryForm ∧
    (updateFieldValueTI queryFields st key arg condition ty).submittedSortForm
        = st.submittedSortForm ∧
    (updateFieldValueTI queryFields st key arg condition ty).hasSubmitted
        = st.hasSubmitted := by
  refine ⟨?_, rfl, rfl, rfl, rfl⟩
  exact lookupA_setKey_ne st.queryForm key _ hk

/-- Columns for the C10 witness. -/
def fieldsC10 : List Column :=
  [{ fieldKey := "name", valueType := some "text", initialValue := none,
     defaultCondition := none, defaultSortOrder := none },
   { fieldKey := "age", valueType := some "digit", initialValue := none,
     defaultCondition := none, defaultSortOrder := none }]

/-- State for the C10 witness. -/
def stateC10 : TIState :=
  { queryForm := [("name", { value := .str "alice", condition := "equal", type := none })],
    sortForm := [⟨"name", "asc"⟩],
    submittedQueryForm := [("name", { value := .str "alice", condition := "equal", type := none })],
    submittedSortForm := [⟨"name", "asc"⟩],
    hasSubmitted := true }

/-- Witness for C10: updating "age" leaves the entry for "name" and all other
state components unchanged. -/
theorem updateFieldValue_frame_witness :
    lookupA "name" (updateFieldValueTI fieldsC10 stateC10 "age"
        (.plain (.num 3)) (some "equal") none).queryForm
        = lookupA "name" stateC10.queryForm ∧
    (updateFieldValueTI fieldsC10 stateC10 "age"
        (.plain (.num 3)) (some "equal") none).sortForm = stateC10.sortForm ∧
    (updateFieldValueTI fieldsC10 stateC10 "age"
        (.plain (.num 3)) (some "equal") none).submittedQueryForm
        = stateC10.submittedQueryForm ∧
    (updateFieldValueTI fieldsC10 stateC10 "age"
        (.plain (.num 3)) (some "equal") none).submittedSortForm
        = stateC10.submittedSortForm ∧
    (updateFieldValueTI fieldsC10 stateC10 "age"
        (.plain (.num 3)) (some "equal") none).hasSubmitted = stateC10.hasSubmitted :=
  updateFieldValue_frame fieldsC10 stateC10 "age"
    (.plain (.num 3)) (some "equal") none "name" (by decide)

end NewbieNext
